import Mathlib

/-!
Verification development for the pipeline-tools CD job manager.

The definitions below are a shallow embedding of the Go sources:
- the job-manager scheduler (`jobmanager` package: processJobs,
  processForceDeployJobs, processVxAnchorJobs, processAnchorJobs,
  advanceJob, postProcessJob, NewJob),
- the deploy job state machine (`jobs` package: deployJob.AdvanceJob,
  deployJob.checkEnv, deployJob.updateEnv),
- the E2E test job state machine (`jobs` package: e2eTestJob.AdvanceJob),
- the AWS ECS deployment adapter (Ecs.PopulateLayout, Ecs.CheckTask).

Machine time is modelled as milliseconds in `Int`.  External collaborators
(the durable store, the ECS control plane, the notifier) are modelled as
oracles: records of result values passed to the embedded functions.  Calls
that the Go code performs on collaborators are recorded in an `Event` list
so that theorems can speak about which calls were or were not made.
Go type assertions without the comma-ok form panic when the value is absent;
such panics are modelled by returning `none` from an `Option`-valued
embedding.
-/

set_option autoImplicit false
set_option maxRecDepth 16384

/-- Job types, from the `job` package constants used by the scheduler
(deploy, anchor, test_e2e, test_smoke, workflow). -/
inductive JobType where
  | Deploy
  | Anchor
  | TestE2E
  | TestSmoke
  | Workflow
deriving DecidableEq, Repr

/-- Job stages.  The union of the stage constants used by the scheduler
(queued, dequeued, started, waiting, skipped, canceled, completed, failed). -/
inductive JobStage where
  | Queued
  | Dequeued
  | Started
  | Waiting
  | Skipped
  | Canceled
  | Completed
  | Failed
deriving DecidableEq, Repr

/-- An env layout: cluster name to the list of service names in the cluster.
A Go `nil` inner map is modelled as the empty list of services. -/
abbrev Layout := List (String × List String)

/-- The open `params` map of a job, restricted to the keys the embedded code
reads or writes.  A Go read `params[k].(T)` that drops the ok-flag defaults
to the zero value, modelled with `Option.getD`; a read without the ok-flag
panics on a missing key, modelled by matching on the `Option`. -/
structure Params where
  component : Option String := none
  sha : Option String := none
  shaTag : Option String := none
  force : Option Bool := none
  rollback : Option Bool := none
  manual : Option Bool := none
  layout : Option Layout := none
  start : Option Int := none
  error : Option String := none
  source : Option String := none
  wfName : Option String := none
  wfOrg : Option String := none
  wfRepo : Option String := none
  wfRef : Option String := none
  wfWorkflow : Option String := none
  wfEnvironment : Option String := none
  wfTestSelector : Option String := none
  e2ePrivatePublic : Option String := none
  e2eLocalClientPublic : Option String := none
  e2eLocalNodePrivate : Option String := none
deriving DecidableEq, Repr

/-- The persisted job record (`job.JobState`): id, type, stage, timestamp of
the last stage transition (ms), and the params map. -/
structure JobState where
  jobId : String
  jobType : JobType
  stage : JobStage
  ts : Int
  params : Params
deriving DecidableEq, Repr

/-- Calls made on external collaborators during one advancement, recorded so
that theorems can state that a call did or did not happen. -/
inductive Event where
  | updateEnv (layout : Layout) (sha : String)
  | checkEnv (layout : Layout)
  | genCeramicLayout
  | updateBuildHash (component sha : String)
  | updateDeployHash (component sha : String)
  | notify
  | logPanicText (r : String)
  | logStack
deriving DecidableEq, Repr

/-- Modelled from the spec: `job.IsActiveJob` is not under src/ (only its
callers are).  Section 4.1 step 2 of the spec defines active jobs as those
in stage Dequeued, Started or Waiting. -/
def isActiveJob (j : JobState) : Bool :=
  (j.stage == .Dequeued) || (j.stage == .Started) || (j.stage == .Waiting)

/-- Modelled from the spec: `manager.IsTimedOut` is not under src/.  Section
4.2 of the spec: a job is timed out when `now - ts` exceeds the failure
time. -/
def isTimedOut (j : JobState) (now failureTime : Int) : Bool :=
  now - j.ts > failureTime

/-- Modelled from the spec: `manager.AdvanceJob` (called through the
scheduler's `updateJobStage`) is not under src/.  Per spec section 4.7 it
atomically updates the stage, refreshes `ts`, and per section 7 stores a
supplied error under `params.error`. -/
def updateJobStage (j : JobState) (s : JobStage) (e : Option String) (now : Int) : JobState :=
  { j with
    stage := s
    ts := now
    params := match e with
      | none => j.params
      | some msg => { j.params with error := some msg } }

/-- `manager.DefaultFailureTime` (30 minutes), in milliseconds. -/
def defaultFailureTime : Int := 30 * 60 * 1000

/-- `jobs.FailureTime` for E2E tests (2 hours), in milliseconds. -/
def e2eFailureTime : Int := 2 * 60 * 60 * 1000

/-- Modelled from the spec: `manager.ServiceName` is not under src/; it is
the `source` tag the manager writes on jobs it enqueues itself.  Its exact
value is irrelevant to every claim. -/
def serviceName : String := "cd-manager"

/-! ### ECS adapter: Ecs.CheckTask (src/cd/manager/aws/ecs.go lines 140-171) -/

/-- The slice of an ECS task record that `CheckTask` inspects. -/
structure EcsTask where
  lastStatus : String
deriving DecidableEq, Repr

/-- Result of the `DescribeTasks` call, an oracle input: either an error or
the list of task records returned for the requested ARNs. -/
abbrev DescribeTasksResult := Except String (List EcsTask)

/-- Embedding of `Ecs.CheckTask`: pick the desired status from `running`,
fail on a describe error, and when one or more task records came back return
whether every record's last status matches; with zero records return
`false`. -/
def checkTask (running : Bool) (descResult : DescribeTasksResult) : Except String Bool :=
  match descResult with
  | .error e => .error e
  | .ok tasks =>
    let checkStatus := if running then "RUNNING" else "STOPPED"
    if tasks.length > 0 then
      .ok (tasks.all fun t => t.lastStatus == checkStatus)
    else
      .ok false

/-! ### ECS adapter: Ecs.PopulateLayout (src/cd/manager/aws/ecs.go lines 279-346) -/

/-- `manager.DeployComponent` values the adapter switches on. -/
inductive DeployComponent where
  | Ceramic
  | Ipfs
  | Cas
deriving DecidableEq, Repr

/-- Embedding of `Ecs.PopulateLayout`.  `env` is the `ENV` environment
variable (the code reads it both via `os.Getenv` and the stored `e.env`,
which are the same value).  Each cluster key is always present in the
returned map; for Cas the private and public clusters carry a Go `nil`
service map, modelled as `[]`. -/
def populateLayout (env : String) (component : DeployComponent) : Except String Layout :=
  let globalPrefix := "ceramic"
  let privateCluster := globalPrefix ++ "-" ++ env
  let publicCluster := globalPrefix ++ "-" ++ env ++ "-ex"
  let casCluster := globalPrefix ++ "-" ++ env ++ "-cas"
  let isProd := env == "prod"
  match component with
  | .Ceramic =>
    let privateLayout := [privateCluster ++ "-" ++ "node"]
    let publicLayout :=
      [publicCluster ++ "-" ++ "node", publicCluster ++ "-" ++ "gateway"] ++
        (if isProd then
          [globalPrefix ++ "-" ++ "elp-1-1-node", globalPrefix ++ "-" ++ "elp-1-2-node"]
        else [])
    let casLayout := [casCluster ++ "-" ++ "node"]
    .ok [(privateCluster, privateLayout), (publicCluster, publicLayout), (casCluster, casLayout)]
  | .Ipfs =>
    let privateLayout := [privateCluster ++ "-" ++ "ipfs-nd"]
    let publicLayout :=
      [publicCluster ++ "-" ++ "ipfs-nd", publicCluster ++ "-" ++ "ipfs-gw"] ++
        (if isProd then
          [globalPrefix ++ "-" ++ "elp-1-1-ipfs-nd", globalPrefix ++ "-" ++ "elp-1-2-ipfs-nd"]
        else [])
    let casLayout := [casCluster ++ "-" ++ "ipfs-nd"]
    .ok [(privateCluster, privateLayout), (publicCluster, publicLayout), (casCluster, casLayout)]
  | .Cas =>
    let casLayout := [casCluster ++ "-" ++ "api", casCluster ++ "-" ++ "anchor"]
    .ok [(privateCluster, []), (publicCluster, []), (casCluster, casLayout)]

/-! ### E2E test job state machine (src/unnamed/part_000, e2eTestJob) -/

/-- Oracle results for the collaborators the E2E job calls: `LaunchService`
per test configuration, and `CheckTask` per (running-flag, task id). -/
structure E2eEnv where
  launch : String → Except String String
  checkTaskFor : Bool → String → Except String Bool

/-- Embedding of `e2eTestJob.startE2eTests` together with the per-config
`startE2eTest`: launch the three suites in order, recording each returned
task id into params; stop at the first launch error.  Params written before
the error stick (the Go params map is shared by reference). -/
def startE2eTests (env : E2eEnv) (p : Params) : Params × Option String :=
  match env.launch "private-public" with
  | .error e => (p, some e)
  | .ok id1 =>
    let p := { p with e2ePrivatePublic := some id1 }
    match env.launch "local_client-public" with
    | .error e => (p, some e)
    | .ok id2 =>
      let p := { p with e2eLocalClientPublic := some id2 }
      match env.launch "local_node-private" with
      | .error e => (p, some e)
      | .ok id3 => ({ p with e2eLocalNodePrivate := some id3 }, none)

/-- Embedding of `e2eTestJob.checkE2eTests`: read the three task ids from
params with panicking type assertions (`none` models the panic) and check
each task; true only when all three checks are true. -/
def checkE2eTests (env : E2eEnv) (p : Params) (isRunning : Bool) :
    Option (Except String Bool) :=
  match p.e2ePrivatePublic with
  | none => none
  | some id1 =>
    match env.checkTaskFor isRunning id1 with
    | .error e => some (.error e)
    | .ok b1 =>
      match p.e2eLocalClientPublic with
      | none => none
      | some id2 =>
        match env.checkTaskFor isRunning id2 with
        | .error e => some (.error e)
        | .ok b2 =>
          match p.e2eLocalNodePrivate with
          | none => none
          | some id3 =>
            match env.checkTaskFor isRunning id3 with
            | .error e => some (.error e)
            | .ok b3 => some (.ok (b1 && b2 && b3))

/-- Embedding of `e2eTestJob.AdvanceJob`.  The branch order mirrors the Go
if-chain: Queued first, then the 2-hour failure-time check for every other
stage, then Started and Waiting polling.  The `return nil` branches leave
the state (including `ts`) untouched; every other branch refreshes `ts`.
The unexpected-state branch returns the state unchanged (its error return is
only logged by the caller).  `none` models a panic inside a task-id type
assertion. -/
def e2eAdvance (env : E2eEnv) (st : JobState) (now : Int) : Option JobState :=
  if st.stage = .Queued then
    let (p, err) := startE2eTests env st.params
    let stage : JobStage := if err.isSome then .Failed else .Started
    some { st with stage := stage, params := p, ts := now }
  else if now - e2eFailureTime > st.ts then
    some { st with stage := .Failed, ts := now }
  else if st.stage = .Started then
    match checkE2eTests env st.params true with
    | none => none
    | some (.error _) => some { st with stage := .Failed, ts := now }
    | some (.ok true) => some { st with stage := .Waiting, ts := now }
    | some (.ok false) => some st
  else if st.stage = .Waiting then
    match checkE2eTests env st.params false with
    | none => none
    | some (.error _) => some { st with stage := .Failed, ts := now }
    | some (.ok true) => some { st with stage := .Completed, ts := now }
    | some (.ok false) => some st
  else
    some st

/-- A concrete E2E oracle whose calls all fail; the timeout branch never
consults it. -/
def e2eEnvNever : E2eEnv :=
  { launch := fun _ => .error "unused"
    checkTaskFor := fun _ _ => .error "unused" }

/-- A concrete E2E job state: Waiting, last transition at time 0. -/
def e2eWaitingJob : JobState :=
  { jobId := "e2e-1", jobType := .TestE2E, stage := .Waiting, ts := 0, params := {} }

/-! ### Deploy job state machine (src/unnamed/part_001, deployJob) -/

/-- Oracle results for the collaborators the deploy job calls while
advancing: the deploy-hash map fetch (a Go map, so lookups default to ""),
`UpdateEnv`, `UpdateBuildHash`, `CheckEnv` per layout, the on-the-fly
Ceramic layout generation, and `UpdateDeployHash`. -/
structure DeployEnv where
  deployHashes : Except String (String → String)
  updateEnvRes : Layout → String → Except String Unit
  buildHashRes : Except String Unit
  checkEnvRes : Layout → Except String Bool
  ceramicLayout : Except String Layout
  deployHashRes : Except String Unit

/-- The `deployJob` struct: the job state plus the component, effective sha
and manual flag extracted by the `DeployJob` constructor. -/
structure DeployJobCtx where
  state : JobState
  component : String
  sha : String
  manual : Bool

/-- `manager.DeployComponent_Ipfs`. -/
def componentIpfs : String := "ipfs"

/-- Result of one deploy advancement: the final job state, the collaborator
calls made, and the Go error return (non-none only in the unexpected-state
branch; store errors are modelled as succeeding). -/
structure AdvanceOut where
  state : JobState
  events : List Event
  err : Option String
deriving Repr

/-- Set a job state to Failed with the error recorded in params, as done in
each failing branch of `deployJob.AdvanceJob`. -/
def setFailed (st : JobState) (e : String) : JobState :=
  { st with stage := .Failed, params := { st.params with error := some e } }

/-- The notification tail of `deployJob.AdvanceJob`: notify on entry to
Skipped, Started, Failed or Completed, then persist (modelled as success). -/
def deployNotifyTail (st : JobState) (evts : List Event) : AdvanceOut :=
  if st.stage = .Skipped ∨ st.stage = .Started ∨ st.stage = .Failed ∨ st.stage = .Completed
  then ⟨st, evts ++ [.notify], none⟩
  else ⟨st, evts, none⟩

/-- Embedding of `deployJob.checkEnv`: probe the persisted layout; when it
reports deployed and the component is Ipfs, additionally generate a fresh
Ceramic layout and probe it.  Returns the (result, calls-made) pair. -/
def deployCheckEnv (env : DeployEnv) (d : DeployJobCtx) :
    Except String Bool × List Event :=
  match d.state.params.layout with
  | none => (.error "checkEnv: missing env layout", [])
  | some l =>
    match env.checkEnvRes l with
    | .error e => (.error e, [.checkEnv l])
    | .ok deployed =>
      if ¬deployed ∨ d.component ≠ componentIpfs then
        (.ok deployed, [.checkEnv l])
      else
        match env.ceramicLayout with
        | .error e => (.error e, [.checkEnv l, .genCeramicLayout])
        | .ok cl => (env.checkEnvRes cl, [.checkEnv l, .genCeramicLayout, .checkEnv cl])

/-- Embedding of `deployJob.updateEnv` inlined into the Queued branch of
`deployJob.AdvanceJob`, plus the rest of the if-chain of `AdvanceJob`:
Queued resolves against the deploy-hash map (skip for automated re-deploys
of the deployed hash, otherwise `UpdateEnv` and on success Started with
`start := now` and a best-effort build-hash update); any other stage first
checks the 30-minute timeout; Started polls `checkEnv` (Completed plus a
best-effort deploy-hash update on success, unchanged state on a clean
false); all remaining stages are unexpected. -/
def deployAdvance (env : DeployEnv) (d : DeployJobCtx) (now : Int) : AdvanceOut :=
  let st := d.state
  if st.stage = .Queued then
    match env.deployHashes with
    | .error e => deployNotifyTail (setFailed st e) []
    | .ok dh =>
      if ¬d.manual ∧ d.sha = dh d.component then
        deployNotifyTail { st with stage := .Skipped } []
      else
        match st.params.layout with
        | none => deployNotifyTail (setFailed st "updateEnv: missing env layout") []
        | some l =>
          match env.updateEnvRes l d.sha with
          | .error e => deployNotifyTail (setFailed st e) [.updateEnv l d.sha]
          | .ok _ =>
            deployNotifyTail
              { st with stage := .Started, params := { st.params with start := some now } }
              [.updateEnv l d.sha, .updateBuildHash d.component d.sha]
  else if isTimedOut st now defaultFailureTime then
    deployNotifyTail (setFailed st "timeout") []
  else if st.stage = .Started then
    match deployCheckEnv env d with
    | (.error e, evts) => deployNotifyTail (setFailed st e) evts
    | (.ok true, evts) =>
      deployNotifyTail { st with stage := .Completed }
        (evts ++ [.updateDeployHash d.component d.sha])
    | (.ok false, evts) => ⟨st, evts, none⟩
  else
    ⟨st, [], some "deployJob: unexpected state"⟩

/-! ### Advancement task panic recovery (src/unnamed/part_002, advanceJob) -/

/-- A Go slice expression `s[:n]` on a string: the first `n` bytes, panicking
(modelled as `none`) when the string is shorter than `n`. -/
def goSliceTo (s : String) (n : Nat) : Option String :=
  if n ≤ s.length then some ⟨s.data.take n⟩ else none

/-- What happened inside one advancement goroutine body: it either produced
a new job state or panicked with a panic value `r` while `debug.Stack()`
reads `stack`. -/
inductive TaskOutcome where
  | ok (newState : JobState)
  | panicked (r stack : String)

/-- Embedding of the deferred recovery in `JobManager.advanceJob`: on a
panic, print the panic value and the stack, then transition the job to
Failed with the error `"panic: "` followed by `stack[:1024]`.  The slice
itself panics when the stack is shorter than 1024 bytes; that secondary
panic escapes the already-used recovery, modelled as `none` in the second
component.  The first component is the log of what was printed before the
job update. -/
def runAdvanceTask (now : Int) (js : JobState) (outcome : TaskOutcome) :
    List Event × Option JobState :=
  match outcome with
  | .ok ns => ([], some ns)
  | .panicked r stack =>
    match goSliceTo stack 1024 with
    | none => ([.logPanicText r, .logStack], none)
    | some s =>
      ([.logPanicText r, .logStack],
        some (updateJobStage js .Failed (some ("panic: " ++ s)) now))

/-- A 1024-byte stack text used in concrete inputs. -/
def stack1024 : String := ⟨List.replicate 1024 'a'⟩

/-- A concrete active job for the panic-recovery inputs. -/
def jsPanicW : JobState :=
  { jobId := "p1", jobType := .Anchor, stage := .Started, ts := 0, params := {} }

/-! ### Post-processing (src/unnamed/part_002, postProcessJob and NewJob) -/

/-- Modelled from the spec: `manager.DefaultWaitTime` is not under src/; the
scheduler comment and spec section 4.1.5 place the post-deploy test workflow
5 minutes in the future.  In milliseconds. -/
def defaultWaitTime : Int := 5 * 60 * 1000

/-- Modelled from the spec: `job.DeployJobTarget_Rollback`, the sha sentinel
written on rollback jobs, is not under src/; its exact value is irrelevant
to every claim. -/
def deployJobTargetRollback : String := "rollback"

/-- Embedding of `JobManager.NewJob`: force the stage to Queued, assign the
id and timestamp only when the caller left them empty/zero, and queue the
job (store success modelled). -/
def newJobGo (now : Int) (freshId : String) (js : JobState) : JobState :=
  { js with
    stage := .Queued
    jobId := if js.jobId = "" then freshId else js.jobId
    ts := if js.ts = 0 then now else js.ts }

/-- Oracle results for the collaborators `postProcessJob` consults. -/
structure PostEnv where
  deployTags : Except String (String → Option String)

/-- Embedding of `JobManager.postProcessJob`: a Completed deploy enqueues
the post-deployment test workflow `defaultWaitTime` in the future; a Failed
deploy that is not itself a rollback enqueues a rollback deploy carrying
`rollback=true`, `force=true`, the rollback sha sentinel, and the first
comma-delimited segment of the component's recorded deploy tag; a missing
component, a failed tag fetch, or a missing tag logs and drops.  Returns the
list of jobs enqueued. -/
def postProcessJob (env : PostEnv) (menv : String) (now : Int) (freshId : String)
    (js : JobState) : List JobState :=
  match js.jobType with
  | .Deploy =>
    match js.stage with
    | .Completed =>
      [newJobGo now freshId
        { jobId := "", jobType := .Workflow, stage := .Queued, ts := now + defaultWaitTime,
          params := { source := some serviceName, wfName := some "Post-Deployment Tests",
                      wfOrg := some "3box", wfRepo := some "ceramic-tests",
                      wfRef := some "main", wfWorkflow := some "run-durable.yml",
                      wfEnvironment := some menv, wfTestSelector := some "fast" } }]
    | .Failed =>
      if js.params.rollback.getD false then []
      else
        match js.params.component with
        | none => []
        | some c =>
          match env.deployTags with
          | .error _ => []
          | .ok tags =>
            match tags c with
            | none => []
            | some deployTag =>
              [newJobGo now freshId
                { jobId := "", jobType := .Deploy, stage := .Queued, ts := 0,
                  params := { component := some c, rollback := some true,
                              sha := some deployJobTargetRollback,
                              shaTag := some ((deployTag.splitOn ",").headD ""),
                              force := some true, source := some serviceName } }]
    | _ => []
  | _ => []

/-! ### Anchor dispatch (src/unnamed/part_002, processVxAnchorJobs and
processAnchorJobs).  `IsV5WorkerJob` is code of this repository not under
src/; per the spec, v5 vs v2 worker selection is a property of the job
inspected by the scheduler, so it is kept abstract as a predicate
parameter `isV5`. -/

/-- The cache matcher of `processVxAnchorJobs`: active anchor jobs of the
partition selected by `p5`. -/
def activeAnchorsOf (isV5 : JobState → Bool) (p5 : Bool) (cache : List JobState) :
    List JobState :=
  cache.filter fun js => isActiveJob js && (js.jobType == .Anchor) && (p5 == isV5 js)

/-- The cache matcher of `getActiveDeploys`: active deploy jobs. -/
def activeDeploysOf (cache : List JobState) : List JobState :=
  cache.filter fun js => isActiveJob js && (js.jobType == .Deploy)

/-- The admission loop of `processVxAnchorJobs` over the dequeued list:
`cnt` is the number of anchors admitted so far (`len(dequeuedAnchors)` in
the Go code); the first component collects the admitted anchors, the second
the jobs transitioned to Skipped (store updates modelled as succeeding). -/
def admitLoop (isV5 : JobState → Bool) (p5 : Bool) (maxJ : Int) (active : Nat) (now : Int) :
    List JobState → Nat → List JobState × List JobState
  | [], _ => ([], [])
  | j :: rest, cnt =>
    if j.jobType = .Anchor ∧ p5 = isV5 j then
      if isV5 j = true ∨ maxJ = -1 ∨ ((active : Int) + (cnt : Int) < maxJ) then
        (j :: (admitLoop isV5 p5 maxJ active now rest (cnt + 1)).1,
          (admitLoop isV5 p5 maxJ active now rest (cnt + 1)).2)
      else
        ((admitLoop isV5 p5 maxJ active now rest cnt).1,
          updateJobStage j .Skipped none now :: (admitLoop isV5 p5 maxJ active now rest cnt).2)
    else admitLoop isV5 p5 maxJ active now rest cnt

/-- Written from the spec's words (section 4.1.4, "Admit each Dequeued
anchor if it is a v5 worker, or if maxAnchorJobs == -1, or if
active + admitted-so-far < maxAnchorJobs; otherwise Skip it"), to be
compared with the admission loop embedded from the code. -/
def specAdmit (isV5 : JobState → Bool) (p5 : Bool) (maxJ : Int) (active : Nat) :
    List JobState → Nat → List JobState
  | [], _ => []
  | j :: rest, adm =>
    if j.jobType = .Anchor ∧ p5 = isV5 j then
      if isV5 j = true ∨ maxJ = -1 ∨ ((active : Int) + (adm : Int) < maxJ) then
        j :: specAdmit isV5 p5 maxJ active rest (adm + 1)
      else specAdmit isV5 p5 maxJ active rest adm
    else specAdmit isV5 p5 maxJ active rest adm

/-- Result of one `processVxAnchorJobs` call: the anchors advanced, the
anchors skipped, the number of synthetic top-up anchors enqueued, and the
returned boolean. -/
structure VxOut where
  admitted : List JobState
  skipped : List JobState
  newJobs : Nat
  ret : Bool
deriving DecidableEq, Repr

/-- Embedding of `processVxAnchorJobs`: count the active anchors of the
partition, run the admission loop, advance the admitted anchors, and (for
the v2 partition only) enqueue `minAnchorJobs - admitted` synthetic anchors
when the difference is positive.  Returns `admitted > 0`. -/
def processVxAnchorJobs (isV5 : JobState → Bool) (maxJ minJ : Int) (now : Int)
    (cache dequeued : List JobState) (p5 : Bool) : VxOut :=
  let active := (activeAnchorsOf isV5 p5 cache).length
  { admitted := (admitLoop isV5 p5 maxJ active now dequeued 0).1
    skipped := (admitLoop isV5 p5 maxJ active now dequeued 0).2
    newJobs :=
      if p5 then 0
      else (minJ - ((admitLoop isV5 p5 maxJ active now dequeued 0).1.length : Int)).toNat
    ret := decide (0 < (admitLoop isV5 p5 maxJ active now dequeued 0).1.length) }

/-- Embedding of `processAnchorJobs`: proceed only when no deploy is
active, then `processVxAnchorJobs(dequeuedJobs, true) ||
processVxAnchorJobs(dequeuedJobs, false)` with Go's short-circuit
disjunction: the v2 partition is evaluated only when the v5 call returned
false.  `none` means a deployment was in progress; the second component is
`none` when the v2 partition was not processed. -/
def processAnchorJobs (isV5 : JobState → Bool) (maxJ minJ : Int) (now : Int)
    (cache dequeued : List JobState) : Option (VxOut × Option VxOut) :=
  if (activeDeploysOf cache).length = 0 then
    if (processVxAnchorJobs isV5 maxJ minJ now cache dequeued true).ret then
      some (processVxAnchorJobs isV5 maxJ minJ now cache dequeued true, none)
    else
      some (processVxAnchorJobs isV5 maxJ minJ now cache dequeued true,
        some (processVxAnchorJobs isV5 maxJ minJ now cache dequeued false))
  else none

/-! ### Force-deploy override (src/unnamed/part_002, processForceDeployJobs
and the anchor-suppression decision in processJobs lines 147-203). -/

/-- A job is a force deploy: type Deploy and `params[force].(bool)` with the
ok-flag dropped (missing or non-bool reads as false). -/
def isForceDeployJob (j : JobState) : Bool :=
  (j.jobType == .Deploy) && (j.params.force.getD false)

/-- Go map assignment `m[k] = v` on an association list: replace the entry
for an existing key in place, otherwise append. -/
def assocUpd : List (String × JobState) → String → JobState → List (String × JobState)
  | [], k, v => [(k, v)]
  | (k', v') :: t, k, v =>
    if k' = k then (k, v) :: t else (k', v') :: assocUpd t k v

/-- Go map lookup `m[k]` on an association list. -/
def assocFind : List (String × JobState) → String → Option JobState
  | [], _ => none
  | (k', v') :: t, k => if k' = k then some v' else assocFind t k

/-- First loop of `processForceDeployJobs`: fold the dequeued list into the
`forceDeploys` map, component to job, a newer entry replacing an older one.
The component of a force deploy is read with a panicking type assertion
(`none` models the panic). -/
def collectForceDeploys :
    List JobState → List (String × JobState) → Option (List (String × JobState))
  | [], acc => some acc
  | j :: rest, acc =>
    if isForceDeployJob j then
      match j.params.component with
      | none => none
      | some c => collectForceDeploys rest (assocUpd acc c j)
    else collectForceDeploys rest acc

/-- Second loop of `processForceDeployJobs`: transition to Skipped every
dequeued Deploy whose component is in the force map and whose id differs
from the chosen force job's id (store updates modelled as succeeding);
every dequeued Deploy's component is read with a panicking assertion. -/
def skipForceList (mp : List (String × JobState)) (now : Int) :
    List JobState → Option (List JobState)
  | [] => some []
  | j :: rest =>
    if j.jobType == .Deploy then
      match j.params.component with
      | none => none
      | some c =>
        match skipForceList mp now rest with
        | none => none
        | some s =>
          match assocFind mp c with
          | some fj =>
            if j.jobId ≠ fj.jobId then some (updateJobStage j .Skipped none now :: s)
            else some s
          | none => some s
    else skipForceList mp now rest

/-- The per-job decision of the skip loop, used to state `skipForceList` as
a filterMap: a dequeued Deploy is skipped exactly when its component is in
the force map under a different job id. -/
def skipSelect (mp : List (String × JobState)) (now : Int) (j : JobState) :
    Option JobState :=
  if j.jobType == .Deploy then
    match j.params.component with
    | none => none
    | some c =>
      match assocFind mp c with
      | some fj =>
        if j.jobId ≠ fj.jobId then some (updateJobStage j .Skipped none now) else none
      | none => none
  else none

/-- The per-job decision of the cancel loop: an active deploy is canceled
exactly when its component is in the force map. -/
def cancelSelect (mp : List (String × JobState)) (now : Int) (j : JobState) :
    Option JobState :=
  match j.params.component with
  | none => none
  | some c =>
    if (assocFind mp c).isSome then some (updateJobStage j .Canceled none now) else none

/-- Third loop of `processForceDeployJobs`: transition to Canceled every
active deploy whose component is in the force map. -/
def cancelForceList (mp : List (String × JobState)) (now : Int) :
    List JobState → Option (List JobState)
  | [] => some []
  | j :: rest =>
    match j.params.component with
    | none => none
    | some c =>
      match cancelForceList mp now rest with
      | none => none
      | some s =>
        if (assocFind mp c).isSome then some (updateJobStage j .Canceled none now :: s)
        else some s

/-- Result of `processForceDeployJobs`: the force-deploy map, the dequeued
jobs skipped, the active deploys canceled, and the force jobs advanced
(the values of the map; `maps.Values` order is immaterial to the claims). -/
structure ForceOut where
  mp : List (String × JobState)
  skipped : List JobState
  canceled : List JobState
  advanced : List JobState
deriving DecidableEq, Repr

/-- Embedding of `processForceDeployJobs`: collect the force map; when it is
empty return false having done nothing; otherwise skip duplicate dequeued
deploys, cancel active deploys for the forced components, advance the force
jobs, and return true. -/
def processForceDeployJobs (now : Int) (cache dequeued : List JobState) :
    Option (Bool × ForceOut) :=
  match collectForceDeploys dequeued [] with
  | none => none
  | some mp =>
    if mp.isEmpty then some (false, ⟨mp, [], [], []⟩)
    else
      match skipForceList mp now dequeued with
      | none => none
      | some skipped =>
        match cancelForceList mp now (activeDeploysOf cache) with
        | none => none
        | some canceled => some (true, ⟨mp, skipped, canceled, mp.map Prod.snd⟩)

/-- The anchor-suppression decision of `processJobs` (lines 147-203): start
from true; a true return of `processForceDeployJobs` forces false; otherwise
a Deploy at the head of the dequeued list reduces it to whether an E2E test
is active. -/
def processJobsAnchorFlag (forceRet headIsDeploy e2eActive : Bool) : Bool :=
  if forceRet then false
  else if headIsDeploy then e2eActive
  else true

/-- The newest (last in FIFO order) force deploy of the dequeued list for a
given component. -/
def lastForceDeployFor (l : List JobState) (c : String) : Option JobState :=
  (l.filter fun j => isForceDeployJob j && (j.params.component == some c)).getLast?

/-- Strict one-sided preference on options: the first when it is present,
otherwise the second. -/
def optOr (a b : Option JobState) : Option JobState :=
  match a with
  | some v => some v
  | none => b

/-- A concrete v5-selection predicate for concrete scheduler inputs (the
real `IsV5WorkerJob` is abstract in the model). -/
def isV5W : JobState → Bool := fun js => js.jobId == "v5"

/-- A concrete dequeued v5 anchor job. -/
def anchorV5W : JobState :=
  { jobId := "v5", jobType := .Anchor, stage := .Dequeued, ts := 1, params := {} }

/-- A concrete dequeued v2 anchor job. -/
def anchorV2aW : JobState :=
  { jobId := "a2", jobType := .Anchor, stage := .Dequeued, ts := 2, params := {} }

/-- Another concrete dequeued v2 anchor job. -/
def anchorV2bW : JobState :=
  { jobId := "b2", jobType := .Anchor, stage := .Dequeued, ts := 3, params := {} }

/-- A concrete dequeued force deploy for Ipfs. -/
def forceDeployW : JobState :=
  { jobId := "fd1", jobType := .Deploy, stage := .Dequeued, ts := 4,
    params := { component := some "ipfs", sha := some "def", force := some true } }

/-- A concrete dequeued non-force deploy for Ipfs, older than the force
job. -/
def plainDeployW : JobState :=
  { jobId := "pd1", jobType := .Deploy, stage := .Dequeued, ts := 2,
    params := { component := some "ipfs", sha := some "abc" } }

/-- A concrete active (Started) deploy for Ipfs. -/
def activeDeployW : JobState :=
  { jobId := "ad1", jobType := .Deploy, stage := .Started, ts := 0,
    params := { component := some "ipfs", sha := some "abc" } }

/-- A concrete Failed (non-rollback) Ceramic deploy job. -/
def failedDeployW : JobState :=
  { jobId := "f1", jobType := .Deploy, stage := .Failed, ts := 0,
    params := { component := some "ceramic", sha := some "bad" } }

/-- A concrete deploy-tags oracle: Ceramic's recorded tag is
"sha-ceramic-xyz,prod". -/
def postEnvW : PostEnv :=
  { deployTags := .ok fun c => if c = "ceramic" then some "sha-ceramic-xyz,prod" else none }

/-- A deploy oracle for concrete witnesses: every call succeeds, the deploy
hash of every component is "abc". -/
def deployEnvW : DeployEnv :=
  { deployHashes := .ok fun _ => "abc"
    updateEnvRes := fun _ _ => .ok ()
    buildHashRes := .ok ()
    checkEnvRes := fun _ => .ok true
    ceramicLayout := .ok [("ceramic-dev", ["ceramic-dev-node"])]
    deployHashRes := .ok () }

/-- A concrete Queued automated Ceramic deploy of sha "abc". -/
def deployCtxQueuedW : DeployJobCtx :=
  { state := { jobId := "d1", jobType := .Deploy, stage := .Queued, ts := 0,
               params := { layout := some [("cl", ["sv"])] } }
    component := "ceramic"
    sha := "abc"
    manual := false }

/-- A concrete Started Ceramic deploy. -/
def deployCtxStartedW : DeployJobCtx :=
  { state := { jobId := "d2", jobType := .Deploy, stage := .Started, ts := 0,
               params := { layout := some [("cl", ["sv"])] } }
    component := "ceramic"
    sha := "def"
    manual := false }

/-! ## Theorems -/

/-! ### Claims C9 and C10 -/

/-- C10: for every call to `CheckTask` where the describe call succeeds but
returns zero task records, the result is `(false, nil)`: not-matching rather
than vacuously true or an error. -/
theorem checkTask_empty_false (running : Bool) :
    checkTask running (.ok []) = .ok false := by
  cases running <;> rfl

/-- C9 counterexample: for `env = "dev"` the layout generated for Cas does
not map only the cluster `ceramic-dev-cas`; the keys `ceramic-dev` and
`ceramic-dev-ex` are also present (each with a nil service map). -/
theorem populateLayout_cas_extra_keys :
    populateLayout "dev" .Cas =
      .ok [("ceramic-dev", []), ("ceramic-dev-ex", []),
           ("ceramic-dev-cas", ["ceramic-dev-cas-api", "ceramic-dev-cas-anchor"])] ∧
    ¬ (∀ l, populateLayout "dev" .Cas = .ok l →
        ∀ p ∈ l, p.1 = "ceramic-dev-cas") := by
  constructor
  · rfl
  · intro h
    have := h [("ceramic-dev", []), ("ceramic-dev-ex", []),
      ("ceramic-dev-cas", ["ceramic-dev-cas-api", "ceramic-dev-cas-anchor"])] rfl
      ("ceramic-dev", []) (by decide)
    simp at this

/-- C9 amended: for every env, the layout generated for Cas contains exactly
the three cluster keys `ceramic-{env}`, `ceramic-{env}-ex` and
`ceramic-{env}-cas`, in which the private and public clusters map to a nil
(empty) service map and the cas cluster maps exactly the two services
`ceramic-{env}-cas-api` and `ceramic-{env}-cas-anchor`. -/
theorem populateLayout_cas_layout (env : String) :
    populateLayout env .Cas =
      .ok [("ceramic-" ++ env, []), ("ceramic-" ++ env ++ "-ex", []),
           ("ceramic-" ++ env ++ "-cas",
             ["ceramic-" ++ env ++ "-cas" ++ "-" ++ "api",
              "ceramic-" ++ env ++ "-cas" ++ "-" ++ "anchor"])] := by
  rfl

/-! ### Claim C5 (E2E timeout) -/

/-- C5 counterexample: a Waiting E2E job whose last transition is 2 hours
and 1 ms in the past transitions to Failed, but no error (in particular not
"timeout") is recorded in its params, contrary to the claim. -/
theorem e2eTimeout_no_error_param :
    e2eAdvance e2eEnvNever e2eWaitingJob 7200001 =
      some { e2eWaitingJob with stage := .Failed, ts := 7200001 } ∧
    ((e2eAdvance e2eEnvNever e2eWaitingJob 7200001).map fun s => s.params.error) =
      some none := by
  constructor <;> rfl

/-- C5 amended: for every E2E test job in a non-Queued stage whose ts is
more than 2 hours in the past, one advancement transitions it to Failed;
its params (in particular the error field) are left unchanged. -/
theorem e2eTimeout_failed (env : E2eEnv) (st : JobState) (now : Int)
    (hstage : st.stage ≠ .Queued) (hts : now - st.ts > e2eFailureTime) :
    e2eAdvance env st now = some { st with stage := .Failed, ts := now } := by
  unfold e2eAdvance
  rw [if_neg hstage, if_pos (by omega)]

/-! ### Claim C4 (Queued deploy step) -/

/-- C4: advancing a Queued deploy job, when the deploy-hash fetch succeeds
and the layout is present: if the job is automated (`manual=false`) and its
sha equals the component's deploy hash it is Skipped and UpdateEnv is never
called; otherwise UpdateEnv(layout, sha) is called and on success the job
becomes Started with `params.start = now`, the build-hash update is
attempted, and (since the build-hash oracle is universally quantified) its
failure does not change the outcome. -/
theorem deployQueuedStep (env : DeployEnv) (d : DeployJobCtx) (now : Int)
    (dh : String → String) (l : Layout)
    (hq : d.state.stage = .Queued)
    (hdh : env.deployHashes = .ok dh)
    (hl : d.state.params.layout = some l) :
    ((¬d.manual ∧ d.sha = dh d.component) →
      (deployAdvance env d now).state.stage = .Skipped ∧
        ∀ l' s', Event.updateEnv l' s' ∉ (deployAdvance env d now).events) ∧
    (¬(¬d.manual ∧ d.sha = dh d.component) →
      Event.updateEnv l d.sha ∈ (deployAdvance env d now).events ∧
        (env.updateEnvRes l d.sha = .ok () →
          (deployAdvance env d now).state.stage = .Started ∧
          (deployAdvance env d now).state.params.start = some now ∧
          Event.updateBuildHash d.component d.sha ∈ (deployAdvance env d now).events)) := by
  by_cases hcase : ¬d.manual ∧ d.sha = dh d.component
  · have hres : deployAdvance env d now =
        deployNotifyTail { d.state with stage := .Skipped } [] := by
      simp only [deployAdvance, hq, hdh, if_pos hcase]
      simp
    refine ⟨fun _ => ?_, fun hc => absurd hcase hc⟩
    rw [hres]
    simp [deployNotifyTail]
  · have hres : deployAdvance env d now =
        match env.updateEnvRes l d.sha with
        | .error e => deployNotifyTail (setFailed d.state e) [.updateEnv l d.sha]
        | .ok _ =>
          deployNotifyTail
            { d.state with stage := .Started, params := { d.state.params with start := some now } }
            [.updateEnv l d.sha, .updateBuildHash d.component d.sha] := by
      simp only [deployAdvance, hq, hdh, if_neg hcase, hl]
      simp
    refine ⟨fun hc => absurd hc hcase, fun _ => ?_⟩
    rw [hres]
    constructor
    · cases hres2 : env.updateEnvRes l d.sha <;> simp [deployNotifyTail, setFailed]
    · intro hok
      rw [hok]
      simp [deployNotifyTail]

/-- Witness for the C4 theorem: at the concrete automated deploy of the
already-deployed hash "abc", the job is Skipped and no UpdateEnv event is
emitted. -/
theorem deployQueuedStep_witness :
    deployCtxQueuedW.state.stage = .Queued ∧
    deployEnvW.deployHashes = .ok (fun _ => "abc") ∧
    deployCtxQueuedW.state.params.layout = some [("cl", ["sv"])] ∧
    (((¬deployCtxQueuedW.manual ∧
        deployCtxQueuedW.sha = (fun _ => "abc") deployCtxQueuedW.component) →
      (deployAdvance deployEnvW deployCtxQueuedW 5).state.stage = .Skipped ∧
        ∀ l' s', Event.updateEnv l' s' ∉ (deployAdvance deployEnvW deployCtxQueuedW 5).events) ∧
    (¬(¬deployCtxQueuedW.manual ∧
        deployCtxQueuedW.sha = (fun _ => "abc") deployCtxQueuedW.component) →
      Event.updateEnv [("cl", ["sv"])] deployCtxQueuedW.sha ∈
          (deployAdvance deployEnvW deployCtxQueuedW 5).events ∧
        (deployEnvW.updateEnvRes [("cl", ["sv"])] deployCtxQueuedW.sha = .ok () →
          (deployAdvance deployEnvW deployCtxQueuedW 5).state.stage = .Started ∧
          (deployAdvance deployEnvW deployCtxQueuedW 5).state.params.start = some 5 ∧
          Event.updateBuildHash deployCtxQueuedW.component deployCtxQueuedW.sha ∈
            (deployAdvance deployEnvW deployCtxQueuedW 5).events))) :=
  ⟨rfl, rfl, rfl,
    deployQueuedStep deployEnvW deployCtxQueuedW 5 (fun _ => "abc") [("cl", ["sv"])]
      rfl rfl rfl⟩

/-! ### Claim C7 (Started deploy step and the IPFS Ceramic gate) -/

/-- C7: advancing a non-timed-out Started deploy with its layout present:
the job becomes Completed exactly when CheckEnv(layout) reports true and,
for the Ipfs component only, CheckEnv of the freshly generated Ceramic
layout also reports true; for non-Ipfs components the Ceramic layout is
never generated; and a clean false probe leaves the state unchanged
(still Started). -/
theorem deployStartedStep (env : DeployEnv) (d : DeployJobCtx) (now : Int) (l : Layout)
    (hs : d.state.stage = .Started)
    (ht : isTimedOut d.state now defaultFailureTime = false)
    (hl : d.state.params.layout = some l) :
    ((deployAdvance env d now).state.stage = .Completed ↔
      (env.checkEnvRes l = .ok true ∧
        (d.component = componentIpfs →
          ∃ cl, env.ceramicLayout = .ok cl ∧ env.checkEnvRes cl = .ok true))) ∧
    (d.component ≠ componentIpfs →
      Event.genCeramicLayout ∉ (deployAdvance env d now).events) ∧
    ((deployCheckEnv env d).1 = .ok false →
      (deployAdvance env d now).state = d.state) := by
  have hadv : deployAdvance env d now =
      match deployCheckEnv env d with
      | (.error e, evts) => deployNotifyTail (setFailed d.state e) evts
      | (.ok true, evts) =>
        deployNotifyTail { d.state with stage := .Completed }
          (evts ++ [.updateDeployHash d.component d.sha])
      | (.ok false, evts) => ⟨d.state, evts, none⟩ := by
    simp only [deployAdvance, hs, ht]
    simp
  rcases hce : env.checkEnvRes l with e | deployed
  · have hc : deployCheckEnv env d = (.error e, [.checkEnv l]) := by
      simp [deployCheckEnv, hl, hce]
    rw [hadv, hc]
    refine ⟨?_, ?_, ?_⟩
    · simp [deployNotifyTail, setFailed, hce]
    · intro _
      simp [deployNotifyTail, setFailed]
    · simp
  · cases deployed
    · have hc : deployCheckEnv env d = (.ok false, [.checkEnv l]) := by
        simp [deployCheckEnv, hl, hce]
      rw [hadv, hc]
      refine ⟨?_, ?_, ?_⟩
      · simp [hs, hce]
      · intro _
        simp
      · intro _
        rfl
    · by_cases hip : d.component = componentIpfs
      · rcases hcl : env.ceramicLayout with e2 | cl
        · have hc : deployCheckEnv env d =
              (.error e2, [.checkEnv l, .genCeramicLayout]) := by
            simp [deployCheckEnv, hl, hce, hip, hcl]
          rw [hadv, hc]
          refine ⟨?_, ?_, ?_⟩
          · simp only [deployNotifyTail, setFailed]
            simp [hce, hip, hcl]
          · intro hni
            exact absurd hip hni
          · simp
        · have hc : deployCheckEnv env d =
              (env.checkEnvRes cl, [.checkEnv l, .genCeramicLayout, .checkEnv cl]) := by
            simp [deployCheckEnv, hl, hce, hip, hcl]
          rcases hce2 : env.checkEnvRes cl with e3 | b2
          · rw [hadv, hc, hce2]
            refine ⟨?_, ?_, ?_⟩
            · simp only [deployNotifyTail, setFailed]
              simp [hce, hip, hcl, hce2]
            · intro hni
              exact absurd hip hni
            · simp
          · cases b2
            · rw [hadv, hc, hce2]
              refine ⟨?_, ?_, ?_⟩
              · simp [hs, hce, hip, hcl, hce2]
              · intro hni
                exact absurd hip hni
              · intro _
                rfl
            · rw [hadv, hc, hce2]
              refine ⟨?_, ?_, ?_⟩
              · simp only [deployNotifyTail]
                simp [hce, hip, hcl, hce2]
              · intro hni
                exact absurd hip hni
              · simp
      · have hc : deployCheckEnv env d = (.ok true, [.checkEnv l]) := by
          simp [deployCheckEnv, hl, hce, hip]
        rw [hadv, hc]
        refine ⟨?_, ?_, ?_⟩
        · simp [deployNotifyTail, hce, hip]
        · intro _
          simp [deployNotifyTail]
        · simp

/-- Witness for the C7 theorem: the concrete Started Ceramic deploy with an
all-true probe oracle becomes Completed without generating a Ceramic
layout. -/
theorem deployStartedStep_witness :
    deployCtxStartedW.state.stage = .Started ∧
    isTimedOut deployCtxStartedW.state 5 defaultFailureTime = false ∧
    deployCtxStartedW.state.params.layout = some [("cl", ["sv"])] ∧
    (((deployAdvance deployEnvW deployCtxStartedW 5).state.stage = .Completed ↔
      (deployEnvW.checkEnvRes [("cl", ["sv"])] = .ok true ∧
        (deployCtxStartedW.component = componentIpfs →
          ∃ cl, deployEnvW.ceramicLayout = .ok cl ∧
            deployEnvW.checkEnvRes cl = .ok true))) ∧
    (deployCtxStartedW.component ≠ componentIpfs →
      Event.genCeramicLayout ∉ (deployAdvance deployEnvW deployCtxStartedW 5).events) ∧
    ((deployCheckEnv deployEnvW deployCtxStartedW).1 = .ok false →
      (deployAdvance deployEnvW deployCtxStartedW 5).state = deployCtxStartedW.state)) :=
  ⟨rfl, rfl, rfl,
    deployStartedStep deployEnvW deployCtxStartedW 5 [("cl", ["sv"])] rfl rfl rfl⟩

/-- Witness for the amended C5 theorem at a concrete input. -/
theorem e2eTimeout_failed_witness :
    e2eWaitingJob.stage ≠ .Queued ∧ (7200001 : Int) - e2eWaitingJob.ts > e2eFailureTime ∧
    e2eAdvance e2eEnvNever e2eWaitingJob 7200001 =
      some { e2eWaitingJob with stage := .Failed, ts := 7200001 } :=
  ⟨by decide, by decide,
    e2eTimeout_failed e2eEnvNever e2eWaitingJob 7200001 (by decide) (by decide)⟩

/-! ### Claim C8 (panic containment) -/

/-- The length of the concrete 1024-byte stack. -/
theorem stack1024_length : stack1024.length = 1024 := by
  show (List.replicate 1024 'a').length = 1024
  simp

/-- Taking 1024 bytes of the concrete stack returns it whole. -/
theorem stack1024_take : stack1024.data.take 1024 = stack1024.data := by
  show (List.replicate 1024 'a').take 1024 = List.replicate 1024 'a'
  simp

/-- C8 counterexample: an advancement task that panics with value "boom"
while the captured stack is 1024 bytes of "a" is recovered and the job
transitioned to Failed, but the recorded error is "panic: " followed by the
stack only — the panic text "boom" does not occur in it, contrary to the
claim that the error contains the panic text. -/
theorem advanceTask_panic_counterexample :
    ∃ js, (runAdvanceTask 0 jsPanicW (.panicked "boom" stack1024)).2 = some js ∧
      js.params.error = some ("panic: " ++ stack1024) ∧
      ¬ ("boom".data <:+: ("panic: " ++ stack1024).data) := by
  have hslice : goSliceTo stack1024 1024 = some stack1024 := by
    unfold goSliceTo
    rw [if_pos (le_of_eq stack1024_length.symm), stack1024_take]
  refine ⟨updateJobStage jsPanicW .Failed (some ("panic: " ++ stack1024)) 0, ?_, rfl, ?_⟩
  · simp [runAdvanceTask, hslice]
  · intro h
    have hb : 'b' ∈ ("panic: " ++ stack1024).data := h.subset (by decide)
    have hdata : ("panic: " ++ stack1024).data = "panic: ".data ++ stack1024.data := rfl
    rw [hdata] at hb
    rcases List.mem_append.1 hb with h1 | h2
    · exact absurd h1 (by decide)
    · have : 'b' = 'a' := List.eq_of_mem_replicate h2
      exact absurd this (by decide)

/-- C8 amended: when the captured stack is at least 1024 bytes (the Go code
slices `stack[:1024]`, which itself panics on a shorter stack), the panic is
recovered: the panic value and the stack are logged, and the job is
transitioned to Failed with an error consisting of "panic: " followed by
exactly the first 1024 bytes of the stack; the panic text is logged but not
included in the error. -/
theorem advanceTask_panic_recovery (js : JobState) (r stack : String) (now : Int)
    (h : 1024 ≤ stack.length) :
    ∃ s, goSliceTo stack 1024 = some s ∧ s.data = stack.data.take 1024 ∧
      runAdvanceTask now js (.panicked r stack) =
        ([.logPanicText r, .logStack],
          some (updateJobStage js .Failed (some ("panic: " ++ s)) now)) ∧
      (updateJobStage js .Failed (some ("panic: " ++ s)) now).stage = .Failed ∧
      (updateJobStage js .Failed (some ("panic: " ++ s)) now).params.error =
        some ("panic: " ++ s) := by
  refine ⟨⟨stack.data.take 1024⟩, ?_, rfl, ?_, rfl, rfl⟩
  · simp [goSliceTo, h]
  · simp [runAdvanceTask, goSliceTo, h]

/-- Witness for the amended C8 theorem at a concrete panic. -/
theorem advanceTask_panic_recovery_witness :
    1024 ≤ stack1024.length ∧
    (∃ s, goSliceTo stack1024 1024 = some s ∧ s.data = stack1024.data.take 1024 ∧
      runAdvanceTask 7 jsPanicW (.panicked "kaboom" stack1024) =
        ([.logPanicText "kaboom", .logStack],
          some (updateJobStage jsPanicW .Failed (some ("panic: " ++ s)) 7)) ∧
      (updateJobStage jsPanicW .Failed (some ("panic: " ++ s)) 7).stage = .Failed ∧
      (updateJobStage jsPanicW .Failed (some ("panic: " ++ s)) 7).params.error =
        some ("panic: " ++ s)) :=
  ⟨le_of_eq stack1024_length.symm,
    advanceTask_panic_recovery jsPanicW "kaboom" stack1024 7
      (le_of_eq stack1024_length.symm)⟩

/-! ### Claim C6 (rollback after a failed deploy) -/

/-- C6: post-processing a Failed Deploy job whose params do not carry
`rollback=true` enqueues exactly one new Deploy with `rollback=true`,
`force=true`, the rollback sha sentinel, and `shaTag` equal to the segment
of the component's recorded deploy tag before the first comma; when the
component param or the component's deploy tag is missing nothing is
enqueued, and a Failed Deploy that is itself a rollback enqueues nothing. -/
theorem deployFailedPostProcess (env : PostEnv) (menv freshId : String) (now : Int)
    (js : JobState) (tags : String → Option String)
    (hty : js.jobType = .Deploy) (hst : js.stage = .Failed)
    (htags : env.deployTags = .ok tags) :
    (js.params.rollback.getD false = true →
      postProcessJob env menv now freshId js = []) ∧
    (js.params.rollback.getD false = false →
      (js.params.component = none → postProcessJob env menv now freshId js = []) ∧
      (∀ c, js.params.component = some c → tags c = none →
        postProcessJob env menv now freshId js = []) ∧
      (∀ c tag, js.params.component = some c → tags c = some tag →
        postProcessJob env menv now freshId js =
          [{ jobId := freshId, jobType := .Deploy, stage := .Queued, ts := now,
             params := { component := some c, rollback := some true,
                         sha := some deployJobTargetRollback,
                         shaTag := some ((tag.splitOn ",").headD ""),
                         force := some true, source := some serviceName } }])) := by
  constructor
  · intro hrb
    simp [postProcessJob, hty, hst, hrb]
  · intro hrb
    refine ⟨?_, ?_, ?_⟩
    · intro hc
      simp [postProcessJob, hty, hst, hrb, hc]
    · intro c hc htag
      simp [postProcessJob, hty, hst, hrb, hc, htags, htag]
    · intro c tag hc htag
      simp only [postProcessJob, hty, hst, hrb, hc, htags, htag]
      simp [newJobGo]

/-- Witness for the C6 theorem: the concrete Failed Ceramic deploy with
recorded tag "sha-ceramic-xyz,prod" enqueues one rollback deploy with
shaTag "sha-ceramic-xyz". -/
theorem deployFailedPostProcess_witness :
    failedDeployW.jobType = .Deploy ∧ failedDeployW.stage = .Failed ∧
    postEnvW.deployTags =
      .ok (fun c => if c = "ceramic" then some "sha-ceramic-xyz,prod" else none) ∧
    failedDeployW.params.rollback.getD false = false ∧
    failedDeployW.params.component = some "ceramic" ∧
    postProcessJob postEnvW "qa" 9 "fresh-1" failedDeployW =
      [{ jobId := "fresh-1", jobType := .Deploy, stage := .Queued, ts := 9,
         params := { component := some "ceramic", rollback := some true,
                     sha := some deployJobTargetRollback,
                     shaTag := some (("sha-ceramic-xyz,prod".splitOn ",").headD ""),
                     force := some true, source := some serviceName } }] := by
  refine ⟨rfl, rfl, rfl, rfl, rfl, ?_⟩
  exact (deployFailedPostProcess postEnvW "qa" "fresh-1" 9 failedDeployW
    (fun c => if c = "ceramic" then some "sha-ceramic-xyz,prod" else none)
    rfl rfl rfl).2 rfl |>.2.2 "ceramic" "sha-ceramic-xyz,prod" rfl rfl

/-! ### Claim C2 (anchor admission) -/

/-- Unfolding of the admission loop at an admitted partition anchor. -/
theorem admitLoop_cons_taken (isV5 : JobState → Bool) (p5 : Bool) (maxJ : Int)
    (active : Nat) (now : Int) (j : JobState) (rest : List JobState) (cnt : Nat)
    (h1 : j.jobType = .Anchor ∧ p5 = isV5 j)
    (h2 : isV5 j = true ∨ maxJ = -1 ∨ ((active : Int) + (cnt : Int) < maxJ)) :
    admitLoop isV5 p5 maxJ active now (j :: rest) cnt =
      (j :: (admitLoop isV5 p5 maxJ active now rest (cnt + 1)).1,
        (admitLoop isV5 p5 maxJ active now rest (cnt + 1)).2) := by
  simp [admitLoop, h1, h2]

/-- Unfolding of the admission loop at a skipped partition anchor. -/
theorem admitLoop_cons_skip (isV5 : JobState → Bool) (p5 : Bool) (maxJ : Int)
    (active : Nat) (now : Int) (j : JobState) (rest : List JobState) (cnt : Nat)
    (h1 : j.jobType = .Anchor ∧ p5 = isV5 j)
    (h2 : ¬(isV5 j = true ∨ maxJ = -1 ∨ ((active : Int) + (cnt : Int) < maxJ))) :
    admitLoop isV5 p5 maxJ active now (j :: rest) cnt =
      ((admitLoop isV5 p5 maxJ active now rest cnt).1,
        updateJobStage j .Skipped none now ::
          (admitLoop isV5 p5 maxJ active now rest cnt).2) := by
  simp [admitLoop, h1, h2]

/-- Unfolding of the admission loop at a job outside the partition. -/
theorem admitLoop_cons_other (isV5 : JobState → Bool) (p5 : Bool) (maxJ : Int)
    (active : Nat) (now : Int) (j : JobState) (rest : List JobState) (cnt : Nat)
    (h1 : ¬(j.jobType = .Anchor ∧ p5 = isV5 j)) :
    admitLoop isV5 p5 maxJ active now (j :: rest) cnt =
      admitLoop isV5 p5 maxJ active now rest cnt := by
  simp [admitLoop, h1]

/-- The admitted list of the embedded admission loop coincides with the
admission predicate written from the spec's words. -/
theorem admitLoop_fst_eq_specAdmit (isV5 : JobState → Bool) (p5 : Bool) (maxJ : Int)
    (active : Nat) (now : Int) (l : List JobState) :
    ∀ cnt, (admitLoop isV5 p5 maxJ active now l cnt).1 =
      specAdmit isV5 p5 maxJ active l cnt := by
  induction l with
  | nil => intro cnt; rfl
  | cons j rest ih =>
    intro cnt
    by_cases h1 : j.jobType = .Anchor ∧ p5 = isV5 j
    · by_cases h2 : isV5 j = true ∨ maxJ = -1 ∨ ((active : Int) + (cnt : Int) < maxJ)
      · rw [admitLoop_cons_taken isV5 p5 maxJ active now j rest cnt h1 h2]
        show j :: (admitLoop isV5 p5 maxJ active now rest (cnt + 1)).1 =
          specAdmit isV5 p5 maxJ active (j :: rest) cnt
        simp only [specAdmit]
        rw [if_pos h1, if_pos h2, ih (cnt + 1)]
      · rw [admitLoop_cons_skip isV5 p5 maxJ active now j rest cnt h1 h2]
        show (admitLoop isV5 p5 maxJ active now rest cnt).1 =
          specAdmit isV5 p5 maxJ active (j :: rest) cnt
        simp only [specAdmit]
        rw [if_pos h1, if_neg h2, ih cnt]
    · rw [admitLoop_cons_other isV5 p5 maxJ active now j rest cnt h1]
      show (admitLoop isV5 p5 maxJ active now rest cnt).1 =
        specAdmit isV5 p5 maxJ active (j :: rest) cnt
      simp only [specAdmit]
      rw [if_neg h1, ih cnt]

/-- Every partition anchor of the dequeued list is either admitted or
transitioned to Skipped by the admission loop. -/
theorem admitLoop_exhaustive (isV5 : JobState → Bool) (p5 : Bool) (maxJ : Int)
    (active : Nat) (now : Int) (l : List JobState) :
    ∀ cnt, ∀ j ∈ l, j.jobType = .Anchor → p5 = isV5 j →
      j ∈ (admitLoop isV5 p5 maxJ active now l cnt).1 ∨
      updateJobStage j .Skipped none now ∈ (admitLoop isV5 p5 maxJ active now l cnt).2 := by
  induction l with
  | nil => intro cnt j hj; simp at hj
  | cons a rest ih =>
    intro cnt j hj hty hv5
    rcases List.mem_cons.1 hj with rfl | hjrest
    · have h1 : j.jobType = .Anchor ∧ p5 = isV5 j := ⟨hty, hv5⟩
      by_cases h2 : isV5 j = true ∨ maxJ = -1 ∨ ((active : Int) + (cnt : Int) < maxJ)
      · left
        rw [admitLoop_cons_taken isV5 p5 maxJ active now j rest cnt h1 h2]
        exact List.mem_cons_self j _
      · right
        rw [admitLoop_cons_skip isV5 p5 maxJ active now j rest cnt h1 h2]
        exact List.mem_cons_self _ _
    · by_cases h1 : a.jobType = .Anchor ∧ p5 = isV5 a
      · by_cases h2 : isV5 a = true ∨ maxJ = -1 ∨ ((active : Int) + (cnt : Int) < maxJ)
        · rw [admitLoop_cons_taken isV5 p5 maxJ active now a rest cnt h1 h2]
          rcases ih (cnt + 1) j hjrest hty hv5 with h | h
          · exact Or.inl (List.mem_cons_of_mem a h)
          · exact Or.inr h
        · rw [admitLoop_cons_skip isV5 p5 maxJ active now a rest cnt h1 h2]
          rcases ih cnt j hjrest hty hv5 with h | h
          · exact Or.inl h
          · exact Or.inr (List.mem_cons_of_mem _ h)
      · rw [admitLoop_cons_other isV5 p5 maxJ active now a rest cnt h1]
        exact ih cnt j hjrest hty hv5

/-- Counting bound of the admission loop for the v2 partition with a
non-negative cap: either nothing is admitted or the active count plus the
loop counter plus the number admitted stays within the cap. -/
theorem admitLoop_cap (isV5 : JobState → Bool) (maxJ : Int) (active : Nat) (now : Int)
    (hmax : 0 ≤ maxJ) (l : List JobState) :
    ∀ cnt, (admitLoop isV5 false maxJ active now l cnt).1.length = 0 ∨
      (active : Int) + (cnt : Int) +
        ((admitLoop isV5 false maxJ active now l cnt).1.length : Int) ≤ maxJ := by
  induction l with
  | nil => intro cnt; left; rfl
  | cons a rest ih =>
    intro cnt
    by_cases h1 : a.jobType = .Anchor ∧ false = isV5 a
    · by_cases h2 : isV5 a = true ∨ maxJ = -1 ∨ ((active : Int) + (cnt : Int) < maxJ)
      · have hlt : (active : Int) + (cnt : Int) < maxJ := by
          rcases h2 with h | h | h
          · exact absurd (h1.2.trans h) (by decide)
          · omega
          · exact h
        rw [admitLoop_cons_taken isV5 false maxJ active now a rest cnt h1 h2]
        rcases ih (cnt + 1) with h0 | hle
        · right
          simp only [List.length_cons, h0]
          push_cast
          omega
        · right
          simp only [List.length_cons]
          push_cast at hle ⊢
          omega
      · rw [admitLoop_cons_skip isV5 false maxJ active now a rest cnt h1 h2]
        exact ih cnt
    · rw [admitLoop_cons_other isV5 false maxJ active now a rest cnt h1]
      exact ih cnt

/-- C2: in the anchor dispatch for a partition, the admitted anchors are
exactly those the spec's admission sentence selects (v5 worker, or
maxAnchorJobs = -1, or active plus admitted-so-far below the cap); every
partition anchor is either admitted or transitioned to Skipped; and for the
v2 partition with a non-negative cap the active count plus the newly
admitted count never exceeds maxAnchorJobs. -/
theorem anchorAdmission (isV5 : JobState → Bool) (maxJ minJ now : Int)
    (cache dequeued : List JobState) (p5 : Bool) :
    (processVxAnchorJobs isV5 maxJ minJ now cache dequeued p5).admitted =
      specAdmit isV5 p5 maxJ (activeAnchorsOf isV5 p5 cache).length dequeued 0 ∧
    (∀ j ∈ dequeued, j.jobType = .Anchor → p5 = isV5 j →
      j ∈ (processVxAnchorJobs isV5 maxJ minJ now cache dequeued p5).admitted ∨
      updateJobStage j .Skipped none now ∈
        (processVxAnchorJobs isV5 maxJ minJ now cache dequeued p5).skipped) ∧
    (0 ≤ maxJ → p5 = false →
      ((activeAnchorsOf isV5 p5 cache).length : Int) ≤ maxJ →
      ((activeAnchorsOf isV5 p5 cache).length : Int) +
        ((processVxAnchorJobs isV5 maxJ minJ now cache dequeued p5).admitted.length : Int)
        ≤ maxJ) := by
  refine ⟨?_, ?_, ?_⟩
  · exact admitLoop_fst_eq_specAdmit isV5 p5 maxJ
      (activeAnchorsOf isV5 p5 cache).length now dequeued 0
  · intro j hj hty hv5
    exact admitLoop_exhaustive isV5 p5 maxJ
      (activeAnchorsOf isV5 p5 cache).length now dequeued 0 j hj hty hv5
  · intro hmax hp5 hact
    subst hp5
    rcases admitLoop_cap isV5 maxJ (activeAnchorsOf isV5 false cache).length now hmax
        dequeued 0 with h0 | hle
    · show ((activeAnchorsOf isV5 false cache).length : Int) +
        ((admitLoop isV5 false maxJ (activeAnchorsOf isV5 false cache).length now
          dequeued 0).1.length : Int) ≤ maxJ
      rw [h0]
      simpa using hact
    · show ((activeAnchorsOf isV5 false cache).length : Int) +
        ((admitLoop isV5 false maxJ (activeAnchorsOf isV5 false cache).length now
          dequeued 0).1.length : Int) ≤ maxJ
      omega

/-- Witness for the C2 theorem at a concrete input: two dequeued v2 anchors
with maxAnchorJobs = 1 and no active anchors; the first is admitted, the
second skipped. -/
theorem anchorAdmission_witness :
    (processVxAnchorJobs isV5W 1 0 5 [] [anchorV2aW, anchorV2bW] false).admitted =
      specAdmit isV5W false 1 (activeAnchorsOf isV5W false []).length
        [anchorV2aW, anchorV2bW] 0 ∧
    (processVxAnchorJobs isV5W 1 0 5 [] [anchorV2aW, anchorV2bW] false).admitted =
      [anchorV2aW] ∧
    (processVxAnchorJobs isV5W 1 0 5 [] [anchorV2aW, anchorV2bW] false).skipped =
      [updateJobStage anchorV2bW .Skipped none 5] :=
  ⟨(anchorAdmission isV5W 1 0 5 [] [anchorV2aW, anchorV2bW] false).1,
    by decide, by decide⟩

/-! ### Claim C3 (partition processing and the minimum top-up) -/

/-- C3 counterexample: with no active deploys, one dequeued v5 anchor,
maxAnchorJobs = -1 and minAnchorJobs = 1, the v5 partition advances its one
anchor and returns true, so the Go short-circuit disjunction never processes
the v2 partition: the second component is `none` and no synthetic anchors
are enqueued — although the claim requires the v2 partition to be processed
regardless, which here would have enqueued exactly one synthetic anchor. -/
theorem processAnchor_shortCircuit :
    processAnchorJobs isV5W (-1) 1 0 [] [anchorV5W] =
      some ({ admitted := [anchorV5W], skipped := [], newJobs := 0, ret := true }, none) ∧
    (processVxAnchorJobs isV5W (-1) 1 0 [] [anchorV5W] false).newJobs = 1 := by
  constructor
  · rfl
  · rfl

/-- C3 amended: on every tick with no active deploy, the anchor dispatch
processes the v5 partition, and processes the v2 partition only when the v5
partition advanced no jobs (the Go disjunction short-circuits); when the v2
partition is processed and fewer than minAnchorJobs anchors were admitted,
exactly minAnchorJobs minus admitted synthetic anchors are enqueued (and
the v5 partition never enqueues synthetic anchors). -/
theorem processAnchor_partitions (isV5 : JobState → Bool) (maxJ minJ now : Int)
    (cache dequeued : List JobState)
    (hnd : activeDeploysOf cache = []) :
    processAnchorJobs isV5 maxJ minJ now cache dequeued =
      some (processVxAnchorJobs isV5 maxJ minJ now cache dequeued true,
        if (processVxAnchorJobs isV5 maxJ minJ now cache dequeued true).ret then none
        else some (processVxAnchorJobs isV5 maxJ minJ now cache dequeued false)) ∧
    (∀ p5, (processVxAnchorJobs isV5 maxJ minJ now cache dequeued p5).newJobs =
      if p5 then 0
      else (minJ -
        ((processVxAnchorJobs isV5 maxJ minJ now cache dequeued false).admitted.length :
          Int)).toNat) := by
  constructor
  · unfold processAnchorJobs
    rw [hnd]
    simp only [List.length_nil, if_pos rfl]
    by_cases hret : (processVxAnchorJobs isV5 maxJ minJ now cache dequeued true).ret
    · rw [if_pos hret, if_pos hret]
      simp
    · rw [if_neg hret, if_neg hret]
      simp
  · intro p5
    cases p5
    · rfl
    · rfl

/-- Witness for the amended C3 theorem: concrete no-deploy cache with one
dequeued v5 anchor. -/
theorem processAnchor_partitions_witness :
    activeDeploysOf [] = [] ∧
    (processAnchorJobs isV5W (-1) 1 0 [] [anchorV5W] =
      some (processVxAnchorJobs isV5W (-1) 1 0 [] [anchorV5W] true,
        if (processVxAnchorJobs isV5W (-1) 1 0 [] [anchorV5W] true).ret then none
        else some (processVxAnchorJobs isV5W (-1) 1 0 [] [anchorV5W] false)) ∧
    (∀ p5, (processVxAnchorJobs isV5W (-1) 1 0 [] [anchorV5W] p5).newJobs =
      if p5 then 0
      else (1 -
        ((processVxAnchorJobs isV5W (-1) 1 0 [] [anchorV5W] false).admitted.length :
          Int)).toNat)) :=
  ⟨rfl, processAnchor_partitions isV5W (-1) 1 0 [] [anchorV5W] rfl⟩

/-! ### Claim C1 (force-deploy override) -/

/-- Looking up the key just written by a Go map assignment returns the new
value. -/
theorem assocFind_upd_self (m : List (String × JobState)) (k : String) (v : JobState) :
    assocFind (assocUpd m k v) k = some v := by
  induction m with
  | nil => simp [assocUpd, assocFind]
  | cons p t ih =>
    obtain ⟨k2, v2⟩ := p
    by_cases h : k2 = k
    · simp [assocUpd, assocFind, h]
    · simp [assocUpd, assocFind, h, ih]

/-- A Go map assignment leaves lookups of other keys unchanged. -/
theorem assocFind_upd_ne (m : List (String × JobState)) (k : String) (v : JobState)
    (c : String) (h : c ≠ k) :
    assocFind (assocUpd m k v) c = assocFind m c := by
  induction m with
  | nil => simp [assocUpd, assocFind, Ne.symm h]
  | cons p t ih =>
    obtain ⟨k2, v2⟩ := p
    by_cases h2 : k2 = k
    · subst h2
      simp [assocUpd, assocFind, Ne.symm h]
    · simp [assocUpd, assocFind, h2, ih]

/-- The last element of a cons is the last of the tail when the tail is
nonempty, otherwise the head. -/
theorem getLast?_cons_optOr (a : JobState) (l : List JobState) :
    (a :: l).getLast? = optOr l.getLast? (some a) := by
  cases l with
  | nil => rfl
  | cons b t =>
    rw [List.getLast?_cons_cons]
    have h : (b :: t).getLast?.isSome := by
      rw [List.getLast?_isSome]
      simp
    cases hlast : (b :: t).getLast? with
    | none => rw [hlast] at h; simp at h
    | some x => simp [optOr]

/-- `optOr` with an absent second choice. -/
theorem optOr_none_right (x : Option JobState) : optOr x none = x := by
  cases x <;> rfl

/-- `optOr` whose first argument already prefers a present value. -/
theorem optOr_optOr_some (x : Option JobState) (v : JobState) (y : Option JobState) :
    optOr (optOr x (some v)) y = optOr x (some v) := by
  cases x <;> rfl

/-- Unfolding of the newest-force-deploy selector when the head matches. -/
theorem lastForce_cons_pos (j : JobState) (rest : List JobState) (c : String)
    (h : (isForceDeployJob j && (j.params.component == some c)) = true) :
    lastForceDeployFor (j :: rest) c = optOr (lastForceDeployFor rest c) (some j) := by
  unfold lastForceDeployFor
  rw [List.filter_cons, if_pos h]
  exact getLast?_cons_optOr j _

/-- Unfolding of the newest-force-deploy selector when the head does not
match. -/
theorem lastForce_cons_neg (j : JobState) (rest : List JobState) (c : String)
    (h : (isForceDeployJob j && (j.params.component == some c)) = false) :
    lastForceDeployFor (j :: rest) c = lastForceDeployFor rest c := by
  unfold lastForceDeployFor
  rw [List.filter_cons, h]
  simp

/-- A force deploy is a Deploy job. -/
theorem isForceDeployJob_deploy (j : JobState) (h : isForceDeployJob j = true) :
    j.jobType = .Deploy := by
  unfold isForceDeployJob at h
  rcases Bool.and_eq_true_iff.1 h with ⟨h1, _⟩
  exact beq_iff_eq.1 h1

/-- The first loop of `processForceDeployJobs` succeeds on well-formed input
and its map sends every component to the newest force deploy of the list
for it, falling back to the accumulator. -/
theorem collectForceDeploys_lookup (l : List JobState) :
    ∀ acc : List (String × JobState),
      (∀ j ∈ l, isForceDeployJob j = true → (j.params.component).isSome) →
      ∃ m, collectForceDeploys l acc = some m ∧
        ∀ c, assocFind m c = optOr (lastForceDeployFor l c) (assocFind acc c) := by
  induction l with
  | nil =>
    intro acc _
    refine ⟨acc, rfl, ?_⟩
    intro c
    simp [lastForceDeployFor, optOr]
  | cons j rest ih =>
    intro acc hwf
    by_cases hf : isForceDeployJob j = true
    · have hcomp := hwf j (List.mem_cons_self j rest) hf
      obtain ⟨cj, hcj⟩ := Option.isSome_iff_exists.1 hcomp
      have hstep : collectForceDeploys (j :: rest) acc =
          collectForceDeploys rest (assocUpd acc cj j) := by
        simp [collectForceDeploys, hf, hcj]
      obtain ⟨m, hm, hlook⟩ :=
        ih (assocUpd acc cj j) (fun j2 h2 => hwf j2 (List.mem_cons_of_mem _ h2))
      refine ⟨m, hstep ▸ hm, ?_⟩
      intro c
      by_cases hc : c = cj
      · subst hc
        have hcond : (isForceDeployJob j && (j.params.component == some c)) = true := by
          simp [hf, hcj]
        rw [lastForce_cons_pos j rest c hcond, hlook c, assocFind_upd_self]
        exact (optOr_optOr_some _ _ _).symm
      · have hne : (j.params.component == some c) = false := by
          rw [hcj]
          exact beq_eq_false_iff_ne.mpr fun h => hc (Option.some.inj h).symm
        have hcond : (isForceDeployJob j && (j.params.component == some c)) = false := by
          rw [hne, Bool.and_false]
        rw [lastForce_cons_neg j rest c hcond, hlook c, assocFind_upd_ne acc cj j c hc]
    · have hf2 : isForceDeployJob j = false := by simpa using hf
      have hstep : collectForceDeploys (j :: rest) acc = collectForceDeploys rest acc := by
        simp [collectForceDeploys, hf2]
      obtain ⟨m, hm, hlook⟩ := ih acc (fun j2 h2 => hwf j2 (List.mem_cons_of_mem _ h2))
      refine ⟨m, hstep ▸ hm, ?_⟩
      intro c
      have hcond : (isForceDeployJob j && (j.params.component == some c)) = false := by
        rw [hf2, Bool.false_and]
      rw [lastForce_cons_neg j rest c hcond, hlook c]

/-- Keys after a Go map assignment are the old keys plus the written key. -/
theorem assocKeys_upd_mem (m : List (String × JobState)) (k : String) (v : JobState)
    (x : String) :
    x ∈ (assocUpd m k v).map Prod.fst ↔ x ∈ m.map Prod.fst ∨ x = k := by
  induction m with
  | nil => simp [assocUpd]
  | cons p t ih =>
    obtain ⟨k2, v2⟩ := p
    by_cases h : k2 = k
    · subst h
      simp [assocUpd]
      tauto
    · simp [assocUpd, h, ih]
      tauto

/-- A Go map assignment preserves distinctness of keys. -/
theorem assocUpd_keys_nodup (m : List (String × JobState)) (k : String) (v : JobState)
    (h : (m.map Prod.fst).Nodup) : ((assocUpd m k v).map Prod.fst).Nodup := by
  induction m with
  | nil => simp [assocUpd]
  | cons p t ih =>
    obtain ⟨k2, v2⟩ := p
    simp only [List.map_cons, List.nodup_cons] at h
    by_cases h2 : k2 = k
    · subst h2
      simpa [assocUpd] using h
    · simp only [assocUpd, if_neg h2, List.map_cons, List.nodup_cons]
      refine ⟨?_, ih h.2⟩
      intro hmem
      rcases (assocKeys_upd_mem t k v k2).1 hmem with hm | he
      · exact h.1 hm
      · exact h2 he

/-- The force-deploy map built from an empty accumulator has distinct
component keys: exactly one chosen job per component. -/
theorem collectForceDeploys_nodup (l : List JobState) :
    ∀ acc m, collectForceDeploys l acc = some m →
      (acc.map Prod.fst).Nodup → (m.map Prod.fst).Nodup := by
  induction l with
  | nil =>
    intro acc m hm hnd
    cases hm
    exact hnd
  | cons j rest ih =>
    intro acc m hm hnd
    by_cases hf : isForceDeployJob j = true
    · cases hcj : j.params.component with
      | none => simp [collectForceDeploys, hf, hcj] at hm
      | some c =>
        simp only [collectForceDeploys, hf, hcj, if_pos] at hm
        exact ih _ m hm (assocUpd_keys_nodup acc c j hnd)
    · have hf2 : isForceDeployJob j = false := by simpa using hf
      simp only [collectForceDeploys, hf2] at hm
      simp at hm
      exact ih _ m hm hnd

/-- Every value a lookup can return is among the map's values. -/
theorem assocFind_mem_values (m : List (String × JobState)) (c : String) (v : JobState)
    (h : assocFind m c = some v) : v ∈ m.map Prod.snd := by
  induction m with
  | nil => simp [assocFind] at h
  | cons p t ih =>
    obtain ⟨k2, v2⟩ := p
    by_cases h2 : k2 = c
    · simp only [assocFind, if_pos h2, Option.some.injEq] at h
      simp [h]
    · simp only [assocFind, if_neg h2] at h
      simp [ih h]

/-- A successful lookup witnesses the key among the map's keys. -/
theorem assocFind_mem_keys (m : List (String × JobState)) (c : String) (v : JobState)
    (h : assocFind m c = some v) : c ∈ m.map Prod.fst := by
  induction m with
  | nil => simp [assocFind] at h
  | cons p t ih =>
    obtain ⟨k2, v2⟩ := p
    by_cases h2 : k2 = c
    · simp [h2]
    · simp only [assocFind, if_neg h2] at h
      simp [ih h]

/-- With distinct keys, every value of the map is returned by the lookup of
some key. -/
theorem mem_values_assocFind (m : List (String × JobState)) :
    (m.map Prod.fst).Nodup → ∀ v ∈ m.map Prod.snd, ∃ c, assocFind m c = some v := by
  induction m with
  | nil => intro _ v hv; simp at hv
  | cons p t ih =>
    intro hnd v hv
    obtain ⟨k2, v2⟩ := p
    simp only [List.map_cons, List.nodup_cons] at hnd
    simp only [List.map_cons, List.mem_cons] at hv
    rcases hv with hv | hv
    · exact ⟨k2, by simp [assocFind, hv]⟩
    · obtain ⟨c, hc⟩ := ih hnd.2 v hv
      refine ⟨c, ?_⟩
      by_cases h3 : k2 = c
      · exfalso
        have hmem := assocFind_mem_keys t c v hc
        rw [← h3] at hmem
        exact hnd.1 hmem
      · simp [assocFind, h3, hc]

/-- On well-formed input the skip loop succeeds and equals the filterMap of
its per-job decision. -/
theorem skipForceList_eq (mp : List (String × JobState)) (now : Int) (l : List JobState)
    (hwf : ∀ j ∈ l, j.jobType = .Deploy → (j.params.component).isSome) :
    skipForceList mp now l = some (l.filterMap (skipSelect mp now)) := by
  induction l with
  | nil => rfl
  | cons j rest ih =>
    have ihr := ih fun j2 h2 hty => hwf j2 (List.mem_cons_of_mem _ h2) hty
    by_cases hd : j.jobType = .Deploy
    · have hcomp := hwf j (List.mem_cons_self _ _) hd
      obtain ⟨c, hc⟩ := Option.isSome_iff_exists.1 hcomp
      cases hfind : assocFind mp c with
      | some fj =>
        by_cases hid : j.jobId = fj.jobId
        · simp [skipForceList, List.filterMap_cons, skipSelect, hd, hc, hfind, hid, ihr]
        · simp [skipForceList, List.filterMap_cons, skipSelect, hd, hc, hfind, hid, ihr]
      | none => simp [skipForceList, List.filterMap_cons, skipSelect, hd, hc, hfind, ihr]
    · simp [skipForceList, List.filterMap_cons, skipSelect, hd, ihr]

/-- On well-formed input the cancel loop succeeds and equals the filterMap
of its per-job decision. -/
theorem cancelForceList_eq (mp : List (String × JobState)) (now : Int) (l : List JobState)
    (hwf : ∀ j ∈ l, (j.params.component).isSome) :
    cancelForceList mp now l = some (l.filterMap (cancelSelect mp now)) := by
  induction l with
  | nil => rfl
  | cons j rest ih =>
    have ihr := ih fun j2 h2 => hwf j2 (List.mem_cons_of_mem _ h2)
    obtain ⟨c, hc⟩ := Option.isSome_iff_exists.1 (hwf j (List.mem_cons_self _ _))
    by_cases hfind : (assocFind mp c).isSome
    · simp [cancelForceList, List.filterMap_cons, cancelSelect, hc, hfind, ihr]
    · simp [cancelForceList, List.filterMap_cons, cancelSelect, hc, hfind, ihr]

/-- Characterization of the skip decision. -/
theorem skipSelect_eq_some (mp : List (String × JobState)) (now : Int) (j x : JobState) :
    skipSelect mp now j = some x ↔
      (j.jobType = .Deploy ∧ ∃ c fj, j.params.component = some c ∧
        assocFind mp c = some fj ∧ j.jobId ≠ fj.jobId ∧
        x = updateJobStage j .Skipped none now) := by
  unfold skipSelect
  by_cases hd : j.jobType = .Deploy
  · cases hc : j.params.component with
    | none => simp [hd, hc]
    | some c =>
      cases hfind : assocFind mp c with
      | none => simp [hd, hc, hfind]
      | some fj =>
        by_cases hid : j.jobId = fj.jobId
        · simp [hd, hc, hfind, hid]
        · simp [hd, hc, hfind, hid, eq_comm]
  · simp [hd]

/-- Characterization of the cancel decision. -/
theorem cancelSelect_eq_some (mp : List (String × JobState)) (now : Int) (j x : JobState) :
    cancelSelect mp now j = some x ↔
      (∃ c, j.params.component = some c ∧ (assocFind mp c).isSome ∧
        x = updateJobStage j .Canceled none now) := by
  unfold cancelSelect
  cases hc : j.params.component with
  | none =>
    simp only [hc]
    constructor
    · intro h
      exact Option.noConfusion h
    · rintro ⟨c2, hc2, -, -⟩
      exact Option.noConfusion hc2
  | some c =>
    by_cases hfind : (assocFind mp c).isSome
    · simp only [hc, hfind, if_true, Option.some.injEq]
      constructor
      · intro h
        exact ⟨c, rfl, hfind, h.symm⟩
      · rintro ⟨c2, hc2, -, hx⟩
        cases hc2
        exact hx.symm
    · simp only [hc, hfind, if_false]
      constructor
      · intro h
        simp at h
      · rintro ⟨c2, hc2, hf2, -⟩
        cases Option.some.inj hc2
        exact absurd hf2 hfind

/-- C1: when the dequeued list holds at least one force deploy (and every
deploy job in play carries a component, as the code's panicking type
assertions require), `processForceDeployJobs` returns true, its map keeps
exactly one force job per component (the newest in FIFO order, with
distinct component keys), the advanced jobs are exactly the map's values,
the skipped jobs are exactly the other dequeued Deploys for forced
components (all transitioned to Skipped), the canceled jobs are exactly the
active deploys for forced components (all transitioned to Canceled), and
the anchor-processing flag of the tick is forced to false. -/
theorem forceDeployOverride (cache dequeued : List JobState) (now : Int)
    (hwfd : ∀ j ∈ dequeued, j.jobType = .Deploy → (j.params.component).isSome)
    (hwfa : ∀ j ∈ activeDeploysOf cache, (j.params.component).isSome)
    (hforce : ∃ j ∈ dequeued, isForceDeployJob j = true) :
    ∃ out : ForceOut,
      processForceDeployJobs now cache dequeued = some (true, out) ∧
      (∀ c, assocFind out.mp c = lastForceDeployFor dequeued c) ∧
      (out.mp.map Prod.fst).Nodup ∧
      out.advanced = out.mp.map Prod.snd ∧
      (∀ c fj, assocFind out.mp c = some fj → fj ∈ out.advanced) ∧
      (∀ fj ∈ out.advanced, ∃ c, assocFind out.mp c = some fj) ∧
      (∀ x, x ∈ out.skipped ↔
        ∃ j ∈ dequeued, j.jobType = .Deploy ∧
          ∃ c fj, j.params.component = some c ∧ assocFind out.mp c = some fj ∧
            j.jobId ≠ fj.jobId ∧ x = updateJobStage j .Skipped none now) ∧
      (∀ x ∈ out.skipped, x.stage = .Skipped) ∧
      (∀ x, x ∈ out.canceled ↔
        ∃ j ∈ activeDeploysOf cache,
          ∃ c, j.params.component = some c ∧ (assocFind out.mp c).isSome ∧
            x = updateJobStage j .Canceled none now) ∧
      (∀ x ∈ out.canceled, x.stage = .Canceled) ∧
      (∀ hd e2e, processJobsAnchorFlag true hd e2e = false) := by
  have hwfF : ∀ j ∈ dequeued, isForceDeployJob j = true → (j.params.component).isSome :=
    fun j hj hf => hwfd j hj (isForceDeployJob_deploy j hf)
  obtain ⟨mp, hmp, hlook0⟩ := collectForceDeploys_lookup dequeued [] hwfF
  have hlook : ∀ c, assocFind mp c = lastForceDeployFor dequeued c := by
    intro c
    rw [hlook0 c]
    show optOr (lastForceDeployFor dequeued c) none = _
    exact optOr_none_right _
  obtain ⟨jf, hjf, hforcejf⟩ := hforce
  obtain ⟨cf, hcf⟩ :=
    Option.isSome_iff_exists.1 (hwfd jf hjf (isForceDeployJob_deploy jf hforcejf))
  have hcond : (isForceDeployJob jf && (jf.params.component == some cf)) = true := by
    simp [hforcejf, hcf]
  have hfmem : jf ∈ dequeued.filter
      (fun j => isForceDeployJob j && (j.params.component == some cf)) :=
    List.mem_filter.2 ⟨hjf, hcond⟩
  have hlast : (lastForceDeployFor dequeued cf).isSome := by
    unfold lastForceDeployFor
    rw [List.getLast?_isSome]
    exact List.ne_nil_of_mem hfmem
  have hfindcf : (assocFind mp cf).isSome := by rw [hlook cf]; exact hlast
  have hmpne : mp.isEmpty = false := by
    cases mp with
    | nil => simp [assocFind] at hfindcf
    | cons p t => rfl
  have hskip := skipForceList_eq mp now dequeued hwfd
  have hcanc := cancelForceList_eq mp now (activeDeploysOf cache) hwfa
  have hnodup : (mp.map Prod.fst).Nodup :=
    collectForceDeploys_nodup dequeued [] mp hmp (by simp)
  refine ⟨⟨mp, dequeued.filterMap (skipSelect mp now),
      (activeDeploysOf cache).filterMap (cancelSelect mp now), mp.map Prod.snd⟩,
    ?_, hlook, hnodup, rfl, ?_, ?_, ?_, ?_, ?_, ?_, ?_⟩
  · simp [processForceDeployJobs, hmp, hmpne, hskip, hcanc]
  · intro c fj hfj
    exact assocFind_mem_values mp c fj hfj
  · intro fj hfj
    exact mem_values_assocFind mp hnodup fj hfj
  · intro x
    rw [List.mem_filterMap]
    constructor
    · rintro ⟨j, hj, hsel⟩
      exact ⟨j, hj, (skipSelect_eq_some mp now j x).1 hsel⟩
    · rintro ⟨j, hj, hsel⟩
      exact ⟨j, hj, (skipSelect_eq_some mp now j x).2 hsel⟩
  · intro x hx
    rcases List.mem_filterMap.1 hx with ⟨j, hj, hsel⟩
    obtain ⟨-, c, fj, -, -, -, hx2⟩ := (skipSelect_eq_some mp now j x).1 hsel
    rw [hx2]
    rfl
  · intro x
    rw [List.mem_filterMap]
    constructor
    · rintro ⟨j, hj, hsel⟩
      exact ⟨j, hj, (cancelSelect_eq_some mp now j x).1 hsel⟩
    · rintro ⟨j, hj, hsel⟩
      exact ⟨j, hj, (cancelSelect_eq_some mp now j x).2 hsel⟩
  · intro x hx
    rcases List.mem_filterMap.1 hx with ⟨j, hj, hsel⟩
    obtain ⟨c, -, -, hx2⟩ := (cancelSelect_eq_some mp now j x).1 hsel
    rw [hx2]
    rfl
  · intro hd e2e
    rfl

/-- Witness for the C1 theorem: one active Started Ipfs deploy, a dequeued
older non-force Ipfs deploy followed by a force Ipfs deploy. -/
theorem forceDeployOverride_witness :
    (∀ j ∈ [plainDeployW, forceDeployW], j.jobType = .Deploy → (j.params.component).isSome) ∧
    (∀ j ∈ activeDeploysOf [activeDeployW], (j.params.component).isSome) ∧
    (∃ j ∈ [plainDeployW, forceDeployW], isForceDeployJob j = true) ∧
    (∃ out : ForceOut,
      processForceDeployJobs 9 [activeDeployW] [plainDeployW, forceDeployW] =
        some (true, out) ∧
      (∀ c, assocFind out.mp c = lastForceDeployFor [plainDeployW, forceDeployW] c) ∧
      (out.mp.map Prod.fst).Nodup ∧
      out.advanced = out.mp.map Prod.snd ∧
      (∀ c fj, assocFind out.mp c = some fj → fj ∈ out.advanced) ∧
      (∀ fj ∈ out.advanced, ∃ c, assocFind out.mp c = some fj) ∧
      (∀ x, x ∈ out.skipped ↔
        ∃ j ∈ [plainDeployW, forceDeployW], j.jobType = .Deploy ∧
          ∃ c fj, j.params.component = some c ∧ assocFind out.mp c = some fj ∧
            j.jobId ≠ fj.jobId ∧ x = updateJobStage j .Skipped none 9) ∧
      (∀ x ∈ out.skipped, x.stage = .Skipped) ∧
      (∀ x, x ∈ out.canceled ↔
        ∃ j ∈ activeDeploysOf [activeDeployW],
          ∃ c, j.params.component = some c ∧ (assocFind out.mp c).isSome ∧
            x = updateJobStage j .Canceled none 9) ∧
      (∀ x ∈ out.canceled, x.stage = .Canceled) ∧
      (∀ hd e2e, processJobsAnchorFlag true hd e2e = false)) :=
  ⟨by decide, by decide, by decide,
    forceDeployOverride [activeDeployW] [plainDeployW, forceDeployW] 9
      (by decide) (by decide) (by decide)⟩
